import Mathlib

/-!
Verification development for the avocadoodle game server
(`src/server/index.js`).  The server keeps a single mutable game session
(players, round state, score bookkeeping, histories) and mutates it from
websocket message handlers and timer ticks.  We shallowly embed that
session state as the structure `GState` and each handler / tick as a pure
function `GState → GState × List Emit`, where `Emit` records the messages
the handler sends out.

Numeric conventions: all JS numbers that matter here are integers
(scores, times), embedded as `Int`/`Nat`.  JS `Math.round` (round half
toward +infinity) on an exact rational `num/den` with `den > 0` is
embedded as `jsRoundDiv`; `Math.round(Math.min(30, rt*0.5))` is
`timeScore` (halves are exact in binary floating point, so the
translation is exact).  `Math.ceil(n/3)` on a `Nat` is `maxHints`.

Randomness: `generateWordHint(true)` draws random indices in a rejection
loop until it finds an unrevealed alphabetic index.  We embed the drawn
index as an explicit parameter `pick`; the loop guard of the source
guarantees the picked index is alphabetic and unrevealed, so the embedded
function checks exactly that guard (a `pick` failing the guard, which the
rejection loop of the source never yields, leaves the set unchanged).

Omitted pieces that no claim touches: the cached hint mask string
(`wordHint`, recomputable from `word` and `hintsShown`),
`lastDrawingPlayerName` (used only by the Discord share endpoint), the
database calls (fire-and-forget, no effect on session state), and the
HTTP endpoints.
-/

/-- Game phase, `STATE_IDLE` / `STATE_PLAYING` / `STATE_COOLDOWN` /
`STATE_CHOOSING_WORD` in the source. -/
inductive Phase
  | idle
  | playing
  | cooldown
  | choosingWord
deriving DecidableEq

/-- Per-player session record: cumulative score and the per-round
`guessed` flag (`players[name] = { socket, score, guessed }`). -/
structure Player where
  score : Int
  guessed : Bool
deriving DecidableEq

/-- Payload of a draw message (`{tool, x, y, prevX, prevY}`); only the
`tool` field is inspected by the server, the rest is opaque and folded
into `blob`. -/
structure DrawData where
  tool : String
  blob : Nat := 0
deriving DecidableEq

/-- Payload of a chat message (`{sender, text, color}`, color dropped). -/
structure ChatData where
  sender : String
  text : String
deriving DecidableEq

/-- Messages emitted towards clients (unicast, broadcast, or
broadcast-except-sender), abstracted to what the claims observe. -/
inductive Emit
  | broadcastDraw (d : DrawData)
  | drawTo (name : String) (d : DrawData)
  | chatTo (name : String) (text : String)
  | chatToAll (text : String)
  | chatExcept (name : String) (text : String)
  | chatReplayTo (name : String) (d : ChatData)
  | playerUpdate (name : String)
  | playerGone (name : String)
  | timerAll (t : Int)
  | wordChoicesTo (name : String)
  | startRoundTo (name : String)
  | endRoundAll (word : String)
  | gameOverAll
  | wordHintAll
  | handshakeTo (name : String)
deriving DecidableEq

def SERVER_NAME : String := "/server"

def TIME_ROUND_BASE : Int := 80
def TIME_ROUND_REDUCTION : Int := 5
def TIME_ROUND_MINIMUM : Int := 10
def TIME_ROUND_HINT_START : Int := 30
def TIME_WORD_CHOOSE : Int := 20
def TIME_COOLDOWN : Int := 5

def SCORE_NO_CORRECT_GUESSES : Int := -10
def SCORE_BONUS_FIRST : Int := 4
def SCORE_BONUS_MAX : Int := 6
def SCORE_BONUS_REDUCTION : Int := 1
def SCORE_TIME_MAXIMUM : Int := 30
def SCORE_BASE : Int := 10

def MAX_ROUNDS : Nat := 2

/-- The module-level mutable session state of `index.js`.
`drawingPlayerName` is `none` for the JS `null`; `drawnThisRound` is a
JS `Set` that can also hold `null` (after a second `endRound` with no
drawer), hence `Option String` elements. -/
structure GState where
  phase : Phase
  players : List (String × Player)
  drawingPlayerName : Option String
  word : String
  wordCharLength : Nat
  hintsShown : List Nat
  guessingTime : Int
  remainingTime : Int
  scoreBonus : Int
  winnerScore : Int
  roundScores : List (String × Int)
  drawHistory : List DrawData
  chatHistory : List ChatData
  roundsPlayed : Nat
  gameId : Nat
  drawnThisRound : List (Option String)
deriving DecidableEq

/-! ### Association-list helpers (JS objects keyed by player name) -/

/-- `players[n]` (read). -/
def lookupPlayer (ps : List (String × Player)) (n : String) : Option Player :=
  (ps.find? (fun p => p.1 == n)).map Prod.snd

/-- `players[n] = f(players[n])` for a present key; absent keys are left
alone (the handlers only update keys they know are present). -/
def updatePlayer (ps : List (String × Player)) (n : String) (f : Player → Player) :
    List (String × Player) :=
  ps.map (fun p => if p.1 == n then (p.1, f p.2) else p)

/-- `players[n] = v`: replace in place if the key exists (JS objects keep
the original key position), otherwise append. -/
def setPlayer (ps : List (String × Player)) (n : String) (v : Player) :
    List (String × Player) :=
  if ps.any (fun p => p.1 == n) then ps.map (fun p => if p.1 == n then (p.1, v) else p)
  else ps ++ [(n, v)]

/-- `roundScores[k]` (read). -/
def getAssoc (xs : List (String × Int)) (k : String) : Option Int :=
  (xs.find? (fun p => p.1 == k)).map Prod.snd

/-- `roundScores[k] = v`. -/
def setAssoc (xs : List (String × Int)) (k : String) (v : Int) : List (String × Int) :=
  if xs.any (fun p => p.1 == k) then xs.map (fun p => if p.1 == k then (k, v) else p)
  else xs ++ [(k, v)]

/-! ### Arithmetic helpers -/

/-- JS `Math.round(num/den)` for integers with `den > 0`, evaluated on the
exact rational: `⌊num/den + 1/2⌋`. -/
def jsRoundDiv (num den : Int) : Int :=
  Int.fdiv (2 * num + den) (2 * den)

/-- `Math.round(Math.min(SCORE_TIME_MAXIMUM, remainingTime * SCORE_TIME_MULTIPLIER))`
with `SCORE_TIME_MAXIMUM = 30`, `SCORE_TIME_MULTIPLIER = 0.5`: halves are
exact floats, `Math.round` rounds half toward +infinity, so for integer
`rt` this is `30` when `60 ≤ rt` and `⌊(rt+1)/2⌋` otherwise. -/
def timeScore (rt : Int) : Int :=
  if 60 ≤ rt then 30 else Int.fdiv (rt + 1) 2

/-- `Math.ceil(wordCharLength / 3)` in `checkWordHintAvailable`. -/
def maxHints (n : Nat) : Nat := (n + 2) / 3

/-- Alphabetic-letter count of the word: `word.split('').reduce(...)`
counting `/[a-zA-Z]/` matches.  `Char.isAlpha` is exactly ASCII
`[a-zA-Z]`, matching the JS regex. -/
def alphaCount (w : String) : Nat := (w.data.filter Char.isAlpha).length

/-- `word[i].match(/[a-zA-Z]/)` for an index into the word. -/
def isAlphaAt (w : String) (i : Nat) : Bool :=
  i < w.data.length && (w.data.getD i ' ').isAlpha

/-- JS `String.prototype.toLowerCase()`: lower-case every character
(character-by-character, which is what `toLowerCase` does on the ASCII
dictionary words the server compares; defined via `List.map` so that it
computes by kernel reduction). -/
def jsToLower (s : String) : String := String.mk (s.data.map Char.toLower)

/-- Levenshtein edit distance (the `leven` npm package used for the
"close guess" hints). -/
def levAux : List Char → List Char → Nat
  | [], ys => ys.length
  | x :: xs, [] => (x :: xs).length
  | x :: xs, y :: ys =>
      if x = y then levAux xs ys
      else 1 + min (levAux xs (y :: ys)) (min (levAux (x :: xs) ys) (levAux xs ys))
termination_by xs ys => xs.length + ys.length
decreasing_by all_goals (simp [List.length_cons]; try omega)

def leven (a b : String) : Nat := levAux a.data b.data

/-! ### Server → all-players chat (`sendChatMessageToAllPlayers`):
broadcasts and pushes onto `chatHistory` with NO capacity check. -/

def sendChatToAll (s : GState) (text : String) : GState × List Emit :=
  ({ s with chatHistory := s.chatHistory ++ [{ sender := SERVER_NAME, text := text }] },
   [Emit.chatToAll text])

/-- `checkEveryoneGuessed`: true iff every player other than the drawer
has the `guessed` flag set. -/
def checkEveryoneGuessed (s : GState) : Bool :=
  s.players.all (fun p => p.2.guessed || some p.1 == s.drawingPlayerName)

/-! ### endRound / endGame -/

/-- `endRound`: switch to cooldown, mark the drawer as having drawn,
compute the drawer's payout from the guess ratio, credit it (when the
drawer is still connected), clear the drawer, announce the recap (a
server chat line, pushed to history), and start the cooldown timer
(first tick emits `TimerMessage(5)`; the cooldown timer shadows the
global `remainingTime` with a local constant, so the global one is NOT
written here). -/
def endRound (s : GState) : GState × List Emit :=
  let nonDrawers := s.players.filter (fun p => !(some p.1 == s.drawingPlayerName))
  let playersGuessing := nonDrawers.length
  let playersGuessed := (nonDrawers.filter (fun p => p.2.guessed)).length
  let drawingPlayerScore : Int :=
    if 0 < playersGuessed then jsRoundDiv (s.winnerScore * playersGuessed) playersGuessing
    else SCORE_NO_CORRECT_GUESSES
  -- JS `roundScores[null]` / `players[null]` stringify the key to "null"
  let dKey := s.drawingPlayerName.getD "null"
  let recap := "The word was " ++ s.word ++ ". " ++ toString playersGuessed ++ "/" ++
    toString playersGuessing ++ " guessed"
  let s1 : GState := { s with
    phase := Phase.cooldown,
    drawnThisRound :=
      if s.drawingPlayerName ∈ s.drawnThisRound then s.drawnThisRound
      else s.drawnThisRound ++ [s.drawingPlayerName],
    roundScores := setAssoc s.roundScores dKey drawingPlayerScore,
    players := updatePlayer s.players dKey (fun p => { p with score := p.score + drawingPlayerScore }),
    drawingPlayerName := none,
    chatHistory := s.chatHistory ++ [{ sender := SERVER_NAME, text := recap }] }
  (s1,
   (if (lookupPlayer s.players dKey).isSome then [Emit.playerUpdate dKey] else []) ++
     [Emit.chatToAll recap, Emit.endRoundAll s.word, Emit.timerAll TIME_COOLDOWN])

/-- `endGame`: back to idle, announce game over, start the 20-unit
intermission timer (whose first tick sets the global `remainingTime`
to 20 and broadcasts it). -/
def endGame (s : GState) : GState × List Emit :=
  let s1 : GState := { s with
    phase := Phase.idle,
    chatHistory := s.chatHistory ++ [{ sender := SERVER_NAME, text := "Game over!" }],
    remainingTime := 20 }
  (s1, [Emit.chatToAll "Game over!", Emit.gameOverAll, Emit.timerAll 20])

/-! ### Hints -/

/-- `generateWordHint(true)` restricted to its effect on `hintsShown`:
if fewer indices are revealed than there are alphabetic letters, the
rejection-sampling loop adds one alphabetic, not-yet-revealed index
(`pick`; see the header comment on randomness). -/
def generateWordHintAdd (s : GState) (pick : Nat) : GState :=
  if s.hintsShown.length < s.wordCharLength ∧ isAlphaAt s.word pick = true ∧
      pick ∉ s.hintsShown then
    { s with hintsShown := s.hintsShown ++ [pick] }
  else s

/-- `checkWordHintAvailable(time)`: reveal one more hint when
`time <= TIME_ROUND_HINT_START * (maxHints - hintsShown.size) / maxHints`
(exact rational comparison; for `maxHints = 0` the JS expression is
`NaN` or `-Infinity` and the comparison is false), then (re)broadcast the
hint mask to the non-drawer players. -/
def checkWordHintAvailable (s : GState) (time : Int) (pick : Nat) : GState × List Emit :=
  let m := maxHints s.wordCharLength
  let s1 :=
    if m ≠ 0 ∧ time * (m : Int) ≤ TIME_ROUND_HINT_START * ((m : Int) - s.hintsShown.length)
    then generateWordHintAdd s pick
    else s
  (s1, [Emit.wordHintAll])

/-! ### Round start / word choice -/

/-- `startRound()`: compute the letter count, reset the revealed-hint
set, zero the round ledger and the `guessed` flags, clear the draw
history, announce the drawer (server chat line, pushed to history),
reset the time budget and score bookkeeping, and run the round timer's
immediate first tick (`remainingTime = guessingTime`, broadcast,
`checkWordHintAvailable(80)` — which can never reveal at time 80). -/
def startRound (s : GState) (w : String) : GState × List Emit :=
  let n := alphaCount w
  let announce := (s.drawingPlayerName.getD "") ++ " is drawing now!"
  let s1 : GState := { s with
    word := w,
    wordCharLength := n,
    hintsShown := [],
    players := s.players.map (fun p => (p.1, { p.2 with guessed := false })),
    roundScores := s.players.map (fun p => (p.1, (0 : Int))),
    drawHistory := [],
    chatHistory := s.chatHistory ++ [{ sender := SERVER_NAME, text := announce }],
    guessingTime := TIME_ROUND_BASE,
    remainingTime := TIME_ROUND_BASE,
    winnerScore := 0,
    scoreBonus := SCORE_BONUS_MAX,
    phase := Phase.playing }
  let s2 := (checkWordHintAvailable s1 TIME_ROUND_BASE 0).1
  (s2,
   s.players.map (fun p => Emit.startRoundTo p.1) ++
     [Emit.chatToAll announce, Emit.timerAll TIME_ROUND_BASE, Emit.wordHintAll])

/-- `wsHandlers[WordMessage.type]`: the drawer's explicit word choice
during `CHOOSING_WORD`. -/
def wordHandler (s : GState) (playerName : String) (w : String) : GState × List Emit :=
  if some playerName ≠ s.drawingPlayerName ∨ s.phase ≠ Phase.choosingWord then (s, [])
  else startRound s w

/-! ### Chat / guess handler -/

/-- The guard of the scoring branch of `wsHandlers[ChatMessage.type]`:
`gameState == STATE_PLAYING && word && data.text &&
playerName != drawingPlayerName &&
data.text.toLowerCase() === word.toLowerCase()`
(JS truthiness of a string is non-emptiness).  Note the source does NOT
check the sender's `guessed` flag here. -/
def CorrectGuess (s : GState) (playerName : String) (text : String) : Prop :=
  s.phase = Phase.playing ∧ s.word ≠ "" ∧ text ≠ "" ∧
    some playerName ≠ s.drawingPlayerName ∧ jsToLower text = jsToLower s.word

instance (s : GState) (n : String) (t : String) : Decidable (CorrectGuess s n t) := by
  unfold CorrectGuess; infer_instance

/-- The score credited for a correct guess:
`SCORE_BASE + Math.round(Math.min(30, remainingTime*0.5)) + scoreBonus
+ (winnerScore ? 0 : SCORE_BONUS_FIRST)`. -/
def creditedScore (s : GState) : Int :=
  SCORE_BASE + timeScore s.remainingTime + s.scoreBonus +
    (if s.winnerScore = 0 then SCORE_BONUS_FIRST else 0)

/-- The `while (chatHistory.length >= 20) chatHistory.shift()` loop at
the end of the chat handler: drop oldest entries until fewer than 20
remain (closed form of the loop). -/
def chatEvict (h : List ChatData) : List ChatData :=
  if 20 ≤ h.length then h.drop (h.length - 19) else h

/-- The state mutation performed by the scoring branch of the chat
handler, before the end-of-round check: latch `winnerScore` on the first
correct guess (`winnerScore = winnerScore || score`), decrement the
bonus, write the ledger, credit the guesser and set the flag, and
tighten the time budget (`if (remainingTime > 10) guessingTime -=
Math.min(5, Math.max(0, remainingTime - 10))`). -/
def scoredState (s : GState) (playerName : String) : GState :=
  let sc := creditedScore s
  { s with
    winnerScore := if s.winnerScore = 0 then sc else s.winnerScore,
    scoreBonus := s.scoreBonus - SCORE_BONUS_REDUCTION,
    roundScores := setAssoc s.roundScores playerName sc,
    players := updatePlayer s.players playerName
      (fun p => { p with score := p.score + sc, guessed := true }),
    guessingTime :=
      if 10 < s.remainingTime then
        s.guessingTime - min TIME_ROUND_REDUCTION (max 0 (s.remainingTime - TIME_ROUND_MINIMUM))
      else s.guessingTime }

/-- `wsHandlers[ChatMessage.type]`.  The message's claimed sender is
overwritten with the registry-resolved identity; a correct guess during
play is scored (updating `winnerScore`, `scoreBonus`, the ledger, the
player's score and flag, the time budget) and may end the round; any
other message gets near-miss hints, is relayed, and is appended to the
bounded chat history. -/
def chatHandler (s : GState) (playerName : String) (d0 : ChatData) : GState × List Emit :=
  let d : ChatData := { d0 with sender := playerName }
  if CorrectGuess s playerName d.text then
    let s1 := scoredState s playerName
    let ems := [Emit.chatTo playerName "You guessed the word!",
                Emit.chatExcept playerName (playerName ++ " guessed the word!"),
                Emit.playerUpdate playerName]
    if checkEveryoneGuessed s1 then
      let r := endRound s1
      (r.1, ems ++ r.2)
    else (s1, ems)
  else
    let near : List Emit :=
      if d.text ≠ "" ∧ s.word ≠ "" then
        if leven d.text s.word = 1 then [Emit.chatTo playerName "really close!"]
        else if leven d.text s.word = 2 ∧ s.remainingTime ≤ TIME_ROUND_MINIMUM then
          [Emit.chatTo playerName "kinda close!"]
        else []
      else []
    ({ s with chatHistory := chatEvict s.chatHistory ++ [d] },
     near ++ [Emit.chatExcept playerName d.text])

/-! ### Draw handler -/

/-- `wsHandlers[DrawMessage.type]`: during play only the drawer may draw;
an accepted message is relayed and either clears the history
(`tool == 'clear'`) or is appended — with no capacity check. -/
def drawHandler (s : GState) (playerName : Option String) (d : DrawData) : GState × List Emit :=
  if s.phase = Phase.playing ∧ playerName ≠ s.drawingPlayerName then (s, [])
  else
    ({ s with drawHistory := if d.tool = "clear" then [] else s.drawHistory ++ [d] },
     [Emit.broadcastDraw d])

/-! ### Round timer tick -/

/-- One tick of the playing-round timer (`startRound`'s `startTimer`
callback): recompute `remainingTime = guessingTime - elapsedTime`,
broadcast it, run the hint check, and — when the remaining time has hit
zero — announce and end the round.  `pick` is the hint index the random
reveal would choose (see header). -/
def playingTick (s : GState) (elapsed : Int) (pick : Nat) : GState × List Emit :=
  let rt := s.guessingTime - elapsed
  let s1 : GState := { s with remainingTime := rt }
  let s2 := (checkWordHintAvailable s1 rt pick).1
  if rt ≤ 0 then
    let over := "Round over, the word was " ++ s2.word
    let s3 : GState :=
      { s2 with chatHistory := s2.chatHistory ++ [{ sender := SERVER_NAME, text := over }] }
    let r := endRound s3
    (r.1, [Emit.timerAll rt, Emit.wordHintAll, Emit.chatToAll over] ++ r.2)
  else (s2, [Emit.timerAll rt, Emit.wordHintAll])

/-! ### Disconnect handler -/

/-- One iteration of the `playerNames.forEach` loop in the socket
`disconnect` handler.  `target` is the identity registered for the
disconnecting socket (`none` if the socket never completed a handshake);
`preLen` is `playerNames.length`, captured BEFORE the deletion.  A
matching name is deleted and announced, and if it was the drawer the
session ends the game (when the pre-deletion roster had fewer than two
players) or the round.  Every non-matching name re-checks
`checkEveryoneGuessed` and may end the round. -/
def discStep (target : Option String) (preLen : Nat) (acc : GState × List Emit)
    (name : String) : GState × List Emit :=
  let st := acc.1
  let ems := acc.2
  if some name = target then
    let st1 : GState := { st with players := st.players.filter (fun p => !(p.1 == name)) }
    let bye := name ++ " disconnected"
    let st2 : GState :=
      { st1 with chatHistory := st1.chatHistory ++ [{ sender := SERVER_NAME, text := bye }] }
    let ems := ems ++ [Emit.playerGone name, Emit.chatToAll bye]
    if some name = st.drawingPlayerName then
      if preLen < 2 then
        let r := endGame st2
        (r.1, ems ++ r.2)
      else
        let r := endRound st2
        (r.1, ems ++ r.2)
    else (st2, ems)
  else
    if checkEveryoneGuessed st then
      let r := endRound st
      (r.1, ems ++ r.2)
    else (st, ems)

/-- The socket `disconnect` handler: iterate over the pre-disconnect
roster snapshot.  (The source registers this listener once per incoming
message type, so a physical disconnect runs it several times; the extra
runs find no matching name — the player is already deleted — and only
repeat the `checkEveryoneGuessed` sweep, which `disconnectHandler`
applied to the post-deletion state with an unmatched target models.) -/
def disconnectHandler (s : GState) (target : Option String) : GState × List Emit :=
  let pre := s.players.map Prod.fst
  pre.foldl (discStep target pre.length) (s, [])

/-! ### Handshake / join, startGame, prepareRound -/

/-- The word-fetch callback of `prepareRound` once a drawer `d` has been
selected: the drawer privately receives the word choices, everyone is
told the drawer is choosing (server chat line, pushed to history), the
phase becomes `CHOOSING_WORD`, and the 20-unit choose timer starts (its
immediate first tick writes the global `remainingTime` and broadcasts
it).  The asynchronous `WordModel.findRandom` callback is folded in
synchronously; the fetched word list itself only matters to the timeout
auto-pick, which no claim exercises. -/
def chooseStage (s : GState) (d : String) : GState × List Emit :=
  let note := d ++ " is choosing a word"
  let s1 : GState := { s with
    drawingPlayerName := some d,
    phase := Phase.choosingWord,
    remainingTime := TIME_WORD_CHOOSE,
    chatHistory := s.chatHistory ++ [{ sender := SERVER_NAME, text := note }] }
  (s1, [Emit.wordChoicesTo d, Emit.chatToAll note, Emit.timerAll TIME_WORD_CHOOSE])

/-- `prepareRound()`: below two players fall back to `IDLE`; otherwise
the first roster name not yet in `drawnThisRound` becomes the drawer.
If everyone has drawn, the set is cleared and `roundsPlayed` advances —
ending the game at `MAX_ROUNDS`, else recursing, where the recursion
immediately finds a drawer because the cleared set excludes nobody (the
inner `none` branch is unreachable for a non-empty roster and kept only
to make the match total). -/
def prepareRoundSync (s : GState) : GState × List Emit :=
  if s.players.length < 2 then ({ s with phase := Phase.idle }, [])
  else
    match (s.players.map Prod.fst).find? (fun n => !(some n ∈ s.drawnThisRound)) with
    | some d => chooseStage { s with drawingPlayerName := some d } d
    | none =>
      let s1 : GState := { s with drawnThisRound := [], roundsPlayed := s.roundsPlayed + 1 }
      if s1.roundsPlayed = MAX_ROUNDS then endGame s1
      else
        match (s1.players.map Prod.fst).find? (fun _ => true) with
        | some d => chooseStage { s1 with drawingPlayerName := some d } d
        | none => ({ s1 with phase := Phase.idle }, [])

/-- `startGame` with the freshly generated `gameId` (`uuid()`) passed in
as `newId`: it resets `roundsPlayed` and `gameId` unconditionally, and
only then aborts when fewer than two players are connected; otherwise it
zeroes every score, announces the game and prepares the first round. -/
def startGame (s : GState) (newId : Nat) : GState × List Emit :=
  let s1 : GState := { s with roundsPlayed := 0, gameId := newId }
  if s1.players.length < 2 then (s1, [])
  else
    let s2 : GState :=
      { s1 with players := s1.players.map (fun p => (p.1, { p.2 with score := 0 })) }
    let ems := s2.players.map (fun p => Emit.playerUpdate p.1)
    let r1 := sendChatToAll s2 "Starting new game"
    let r2 := prepareRoundSync r1.1
    (r2.1, ems ++ r1.2 ++ r2.2)

/-- The cooldown timer's completion (`endRound`'s `startTimer` done
callback): prepare the next round when at least two players remain,
otherwise end the game. -/
def cooldownDone (s : GState) : GState × List Emit :=
  if 2 ≤ s.players.length then prepareRoundSync s else endGame s

/-- The handshake handler (`wsHandlers[HandshakeMessage.type]`) after the
user lookup resolved `name` with stored score `dbScore`: (re)register the
player (a fresh `guessed := false` record, keeping the roster position on
reconnect), add a zero ledger entry mid-round, replay both histories to
the joiner, announce the connection (server chat line, pushed to
history), and auto-start a game when idle with a quorum (`newId` is the
`uuid()` such a start would generate).  The force-disconnect of an
evicted duplicate socket fires asynchronously and is not folded in. -/
def joinHandler (s : GState) (name : String) (dbScore : Int) (newId : Nat) :
    GState × List Emit :=
  let s1 : GState :=
    { s with players := setPlayer s.players name { score := dbScore, guessed := false } }
  let s2 : GState :=
    if s1.phase = Phase.playing then { s1 with roundScores := setAssoc s1.roundScores name 0 }
    else s1
  let replay :=
    s2.drawHistory.map (Emit.drawTo name) ++ s2.chatHistory.map (Emit.chatReplayTo name) ++
      s2.players.map (fun p => Emit.playerUpdate p.1)
  let note := name ++ " connected"
  let s3 : GState :=
    { s2 with chatHistory := s2.chatHistory ++ [{ sender := SERVER_NAME, text := note }] }
  let ems := [Emit.handshakeTo name] ++ replay ++ [Emit.chatToAll note]
  if s3.phase = Phase.idle ∧ 2 ≤ s3.players.length then
    let r := startGame s3 newId
    (r.1, ems ++ r.2)
  else (s3, ems)


/-! ### Round-level event traces

Within one round the session is mutated by chat messages, draw messages,
playing-timer ticks, disconnects and mid-round joins.  (The drawer's
word choice and the cooldown completion START rounds and are therefore
round boundaries, not in-round events.)  `applyREvent` funnels each such
event through the corresponding handler above.  The playing timer is the
only live timer while the phase is `PLAYING` — every transition out of
`PLAYING` (`endRound`, `endGame`) clears it before starting its own — so
a playing tick outside `PLAYING` cannot occur and is embedded as a
no-op. -/
inductive REvent
  | chat (playerName : String) (d : ChatData)
  | tick (elapsed : Int) (pick : Nat)
  | draw (playerName : Option String) (d : DrawData)
  | disc (playerName : String)
  | join (playerName : String) (dbScore : Int) (newId : Nat)

def applyREvent (s : GState) : REvent → GState
  | REvent.chat g d => (chatHandler s g d).1
  | REvent.tick e pick => if s.phase = Phase.playing then (playingTick s e pick).1 else s
  | REvent.draw g d => (drawHandler s g d).1
  | REvent.disc g => (disconnectHandler s (some g)).1
  | REvent.join g sc id => (joinHandler s g sc id).1

def runRound (s : GState) : List REvent → GState
  | [] => s
  | e :: es => runRound (applyREvent s e) es

/-- Whether an event is a correct guess when delivered in state `s`
(the scoring branch of the chat handler fires). -/
def isScoring (s : GState) : REvent → Bool
  | REvent.chat g d => decide (CorrectGuess s g d.text)
  | _ => false

/-- Number of correct guesses scored along a trace (each one decrements
`scoreBonus` by one in the source). -/
def scoringCount (s : GState) : List REvent → Nat
  | [] => 0
  | e :: es => (if isScoring s e then 1 else 0) + scoringCount (applyREvent s e) es

/-- The score the FIRST correct guess of a trace is credited with
(`0` when the trace contains no correct guess) — the specification's
"first guesser's score". -/
def firstGuessScore (s : GState) : List REvent → Int
  | [] => 0
  | e :: es =>
    if isScoring s e then creditedScore s else firstGuessScore (applyREvent s e) es

/-- The session state at the start of a round on word `w`, reached from
`s` through `startRound` (the state every in-round trace starts from). -/
def roundStartState (s : GState) (w : String) : GState := (startRound s w).1

/-- Frame relation between a state and its successor used for the
non-scoring, non-tick operations: the round's score bookkeeping is
untouched, revealed hints only grow, and if the successor is still in
the `PLAYING` phase then the operation neither entered `PLAYING` nor
moved the clock. -/
def FrameOk (a b : GState) : Prop :=
  b.scoreBonus = a.scoreBonus ∧ b.winnerScore = a.winnerScore ∧
    a.hintsShown ⊆ b.hintsShown ∧
    (b.phase = Phase.playing → a.phase = Phase.playing ∧ b.remainingTime = a.remainingTime)

/-- The round-trace invariant: while the session is in `PLAYING`, the
last broadcast remaining time is positive (the tick that drives it to
zero or below immediately ends the round). -/
def RoundInv (s : GState) : Prop :=
  s.phase = Phase.playing → 1 ≤ s.remainingTime

/-- Round bookkeeping soundness: `RoundInv`, plus: as long as no correct
guess has been scored (`winnerScore` still 0) the bonus is untouched. -/
def GoodR (s : GState) : Prop :=
  RoundInv s ∧ (s.winnerScore = 0 → s.scoreBonus = SCORE_BONUS_MAX)

/-! ### Concrete sessions used to instantiate the theorems -/

/-- A three-player session between rounds (alice is about to draw). -/
def exBase : GState := {
  phase := Phase.cooldown,
  players := [("alice", ⟨0, false⟩), ("bob", ⟨0, false⟩), ("carol", ⟨0, false⟩)],
  drawingPlayerName := some "alice",
  word := "", wordCharLength := 0, hintsShown := [],
  guessingTime := 0, remainingTime := 0, scoreBonus := 0, winnerScore := 0,
  roundScores := [], drawHistory := [], chatHistory := [],
  roundsPlayed := 0, gameId := 7, drawnThisRound := [] }

/-- Mid-round on "apple": bob has already guessed (credited 45), carol
has not; the round is still running at remaining time 40. -/
def exSecond : GState := {
  phase := Phase.playing,
  players := [("alice", ⟨0, false⟩), ("bob", ⟨45, true⟩), ("carol", ⟨0, false⟩)],
  drawingPlayerName := some "alice",
  word := "apple", wordCharLength := 5, hintsShown := [],
  guessingTime := 75, remainingTime := 40, scoreBonus := 5, winnerScore := 45,
  roundScores := [("alice", 0), ("bob", 45), ("carol", 0)], drawHistory := [], chatHistory := [],
  roundsPlayed := 0, gameId := 7, drawnThisRound := [] }

/-- Mid-round on the two-letter word "ab" (`maxHints "ab" = 1`), the one
allowed hint (index 0) already revealed, with the next tick due at
elapsed 3 hitting remaining time 0. -/
def exHint : GState := { exSecond with
  word := "ab", wordCharLength := 2, hintsShown := [0],
  guessingTime := 3, remainingTime := 1 }

/-- An idle session whose draw history already holds 1000 strokes. -/
def exDraw : GState := { exBase with
  phase := Phase.idle,
  drawHistory := List.replicate 1000 { tool := "line" } }

/-- A two-player session mid-round, alice drawing. -/
def exTwo : GState := { exSecond with
  players := [("alice", ⟨0, false⟩), ("bob", ⟨3, false⟩)],
  winnerScore := 0, scoreBonus := 6,
  roundScores := [("alice", 0), ("bob", 0)] }

/-- A session with a single connected player. -/
def exSolo : GState := { exBase with
  phase := Phase.idle, players := [("alice", ⟨2, false⟩)], roundsPlayed := 1 }

/-! ## Lemmas: association lists -/

theorem lookupPlayer_updatePlayer (ps : List (String × Player)) (n : String)
    (f : Player → Player) :
    lookupPlayer (updatePlayer ps n f) n = (lookupPlayer ps n).map f := by
  induction ps with
  | nil => rfl
  | cons p ps ih =>
    by_cases h : p.1 = n
    · simp [lookupPlayer, updatePlayer, List.find?_cons, h]
    · have hb : (p.1 == n) = false := beq_eq_false_iff_ne.mpr h
      simp only [lookupPlayer, updatePlayer, List.map_cons, hb, Bool.false_eq_true,
        if_false, List.find?_cons] at ih ⊢
      exact ih

theorem getAssoc_setAssoc (xs : List (String × Int)) (k : String) (v : Int) :
    getAssoc (setAssoc xs k v) k = some v := by
  unfold setAssoc
  by_cases hmem : xs.any (fun p => p.1 == k)
  · simp only [hmem, if_true]
    induction xs with
    | nil => simp at hmem
    | cons p ps ih =>
      by_cases h : p.1 = k
      · simp [getAssoc, List.find?_cons, h]
      · have hb : (p.1 == k) = false := beq_eq_false_iff_ne.mpr h
        simp only [List.any_cons, hb, Bool.false_or] at hmem
        have := ih hmem
        simp only [getAssoc, List.map_cons, h, if_false, List.find?_cons, hb,
          Bool.false_eq_true] at this ⊢
        exact this
  · simp only [hmem, if_false]
    have hnone : xs.find? (fun p => p.1 == k) = none := by
      rw [List.find?_eq_none]
      intro x hx
      intro hbx
      exact hmem (List.any_of_mem hx hbx)
    unfold getAssoc
    simp only [Bool.false_eq_true, if_false]
    rw [List.find?_append, hnone]
    simp [List.find?_cons]

/-! ## Lemmas: frame conditions of the transition helpers -/

theorem endRound_frame (s : GState) :
    (endRound s).1.phase = Phase.cooldown ∧
    (endRound s).1.scoreBonus = s.scoreBonus ∧
    (endRound s).1.winnerScore = s.winnerScore ∧
    (endRound s).1.remainingTime = s.remainingTime ∧
    (endRound s).1.guessingTime = s.guessingTime ∧
    (endRound s).1.hintsShown = s.hintsShown ∧
    (endRound s).1.players.length = s.players.length ∧
    (endRound s).1.players.map Prod.fst = s.players.map Prod.fst := by
  refine ⟨rfl, rfl, rfl, rfl, rfl, rfl, ?_, ?_⟩
  · simp [endRound, updatePlayer]
  · simp only [endRound, updatePlayer]
    rw [List.map_map]
    apply List.map_congr_left
    intro p _
    by_cases h : p.1 = s.drawingPlayerName.getD "null" <;> simp [h]

theorem endGame_frame (s : GState) :
    (endGame s).1.phase = Phase.idle ∧
    (endGame s).1.scoreBonus = s.scoreBonus ∧
    (endGame s).1.winnerScore = s.winnerScore ∧
    (endGame s).1.hintsShown = s.hintsShown ∧
    (endGame s).1.players = s.players :=
  ⟨rfl, rfl, rfl, rfl, rfl⟩

theorem checkWordHintAvailable_frame (s : GState) (t : Int) (pick : Nat) :
    (checkWordHintAvailable s t pick).1.phase = s.phase ∧
    (checkWordHintAvailable s t pick).1.players = s.players ∧
    (checkWordHintAvailable s t pick).1.scoreBonus = s.scoreBonus ∧
    (checkWordHintAvailable s t pick).1.winnerScore = s.winnerScore ∧
    (checkWordHintAvailable s t pick).1.remainingTime = s.remainingTime ∧
    (checkWordHintAvailable s t pick).1.guessingTime = s.guessingTime ∧
    (checkWordHintAvailable s t pick).1.word = s.word ∧
    (checkWordHintAvailable s t pick).1.wordCharLength = s.wordCharLength ∧
    (checkWordHintAvailable s t pick).1.chatHistory = s.chatHistory ∧
    (checkWordHintAvailable s t pick).1.drawingPlayerName = s.drawingPlayerName := by
  by_cases hc : maxHints s.wordCharLength ≠ 0 ∧
      t * (maxHints s.wordCharLength : Int) ≤
        TIME_ROUND_HINT_START * ((maxHints s.wordCharLength : Int) - s.hintsShown.length)
  · by_cases hg : s.hintsShown.length < s.wordCharLength ∧ isAlphaAt s.word pick = true ∧
        pick ∉ s.hintsShown
    · simp [checkWordHintAvailable, generateWordHintAdd, hc, hg]
    · simp [checkWordHintAvailable, generateWordHintAdd, hc, hg]
  · simp [checkWordHintAvailable, hc]

/-- `generateWordHint(true)` only ever appends to `hintsShown`. -/
theorem checkWordHintAvailable_hints (s : GState) (t : Int) (pick : Nat) :
    (checkWordHintAvailable s t pick).1.hintsShown = s.hintsShown ∨
    (checkWordHintAvailable s t pick).1.hintsShown = s.hintsShown ++ [pick] := by
  by_cases hc : maxHints s.wordCharLength ≠ 0 ∧
      t * (maxHints s.wordCharLength : Int) ≤
        TIME_ROUND_HINT_START * ((maxHints s.wordCharLength : Int) - s.hintsShown.length)
  · by_cases hg : s.hintsShown.length < s.wordCharLength ∧ isAlphaAt s.word pick = true ∧
        pick ∉ s.hintsShown
    · simp [checkWordHintAvailable, generateWordHintAdd, hc, hg]
    · simp [checkWordHintAvailable, generateWordHintAdd, hc, hg]
  · simp [checkWordHintAvailable, hc]

theorem hints_subset_checkWordHintAvailable (s : GState) (t : Int) (pick : Nat) :
    s.hintsShown ⊆ (checkWordHintAvailable s t pick).1.hintsShown := by
  rcases checkWordHintAvailable_hints s t pick with h | h <;> rw [h]
  · exact fun a ha => ha
  · exact List.subset_append_left _ _

theorem playingTick_frame (s : GState) (e : Int) (pick : Nat) :
    (playingTick s e pick).1.scoreBonus = s.scoreBonus ∧
    (playingTick s e pick).1.winnerScore = s.winnerScore ∧
    s.hintsShown ⊆ (playingTick s e pick).1.hintsShown := by
  simp only [playingTick, checkWordHintAvailable, generateWordHintAdd, endRound]
  split_ifs <;> simp

/-! ## Lemmas: `FrameOk` for the non-scoring operations -/

theorem frameOk_refl (s : GState) : FrameOk s s :=
  ⟨rfl, rfl, fun _ h => h, fun h => ⟨h, rfl⟩⟩

theorem frameOk_trans {a b c : GState} (h1 : FrameOk a b) (h2 : FrameOk b c) : FrameOk a c := by
  obtain ⟨e1, e2, e3, e4⟩ := h1
  obtain ⟨f1, f2, f3, f4⟩ := h2
  refine ⟨f1.trans e1, f2.trans e2, e3.trans f3, fun hc => ?_⟩
  obtain ⟨hb, hrc⟩ := f4 hc
  obtain ⟨ha, hrb⟩ := e4 hb
  exact ⟨ha, hrc.trans hrb⟩

theorem frameOk_endRound (s : GState) : FrameOk s (endRound s).1 := by
  unfold FrameOk
  have h := endRound_frame s
  refine ⟨h.2.1, h.2.2.1, ?_, fun hc => ?_⟩
  · rw [h.2.2.2.2.2.1]; exact fun _ hx => hx
  · rw [h.1] at hc; exact absurd hc (by simp)

theorem frameOk_endGame (s : GState) : FrameOk s (endGame s).1 := by
  refine ⟨rfl, rfl, fun _ hx => hx, fun hc => ?_⟩
  simp [endGame] at hc

theorem frameOk_sendChatToAll (s : GState) (t : String) : FrameOk s (sendChatToAll s t).1 :=
  ⟨rfl, rfl, fun _ hx => hx, fun h => ⟨h, rfl⟩⟩

theorem frameOk_chooseStage (s : GState) (d : String) : FrameOk s (chooseStage s d).1 := by
  refine ⟨rfl, rfl, fun _ hx => hx, fun hc => ?_⟩
  simp [chooseStage] at hc

theorem frameOk_prepareRoundSync (s : GState) : FrameOk s (prepareRoundSync s).1 := by
  unfold prepareRoundSync
  dsimp only
  split
  · exact ⟨rfl, rfl, fun _ hx => hx, fun hc => by simp at hc⟩
  · split
    · exact frameOk_chooseStage _ _
    · split
      · exact frameOk_endGame _
      · split
        · exact frameOk_chooseStage _ _
        · exact ⟨rfl, rfl, fun _ hx => hx, fun hc => by simp at hc⟩

theorem frameOk_startGame (s : GState) (newId : Nat) : FrameOk s (startGame s newId).1 := by
  unfold startGame
  dsimp only
  split
  · exact ⟨rfl, rfl, fun _ hx => hx, fun h => ⟨h, rfl⟩⟩
  · refine frameOk_trans ?_ (frameOk_prepareRoundSync _)
    exact ⟨rfl, rfl, fun _ hx => hx, fun h => ⟨h, rfl⟩⟩

theorem frameOk_joinHandler (s : GState) (n : String) (sc : Int) (newId : Nat) :
    FrameOk s (joinHandler s n sc newId).1 := by
  simp only [joinHandler]
  split <;> split
  all_goals
    first
      | exact frameOk_trans ⟨rfl, rfl, fun _ hx => hx, fun h => ⟨h, rfl⟩⟩
          (frameOk_startGame _ _)
      | exact ⟨rfl, rfl, fun _ hx => hx, fun h => ⟨h, rfl⟩⟩

theorem frameOk_drawHandler (s : GState) (g : Option String) (d : DrawData) :
    FrameOk s (drawHandler s g d).1 := by
  unfold drawHandler
  split
  · exact frameOk_refl s
  · exact ⟨rfl, rfl, fun _ hx => hx, fun h => ⟨h, rfl⟩⟩

theorem frameOk_discStep (t : Option String) (preLen : Nat) (acc : GState × List Emit)
    (name : String) : FrameOk acc.1 (discStep t preLen acc name).1 := by
  unfold discStep
  dsimp only
  split
  · split
    · split
      · exact frameOk_trans ⟨rfl, rfl, fun _ hx => hx, fun h => ⟨h, rfl⟩⟩ (frameOk_endGame _)
      · exact frameOk_trans ⟨rfl, rfl, fun _ hx => hx, fun h => ⟨h, rfl⟩⟩ (frameOk_endRound _)
    · exact ⟨rfl, rfl, fun _ hx => hx, fun h => ⟨h, rfl⟩⟩
  · split
    · exact frameOk_endRound _
    · exact frameOk_refl _

theorem frameOk_disconnectFold (t : Option String) (preLen : Nat) (l : List String)
    (acc : GState × List Emit) :
    FrameOk acc.1 (l.foldl (discStep t preLen) acc).1 := by
  induction l generalizing acc with
  | nil => exact frameOk_refl _
  | cons x xs ih =>
    exact frameOk_trans (frameOk_discStep t preLen acc x) (ih (discStep t preLen acc x))

theorem frameOk_disconnectHandler (s : GState) (t : Option String) :
    FrameOk s (disconnectHandler s t).1 :=
  frameOk_disconnectFold t _ _ (s, [])

/-! ## Lemmas: the chat handler's two paths -/

theorem chatHandler_nonscoring (s : GState) (g : String) (d0 : ChatData)
    (h : ¬ CorrectGuess s g d0.text) :
    (chatHandler s g d0).1 =
      { s with chatHistory := chatEvict s.chatHistory ++ [{ sender := g, text := d0.text }] } := by
  simp [chatHandler, h]

theorem chatHandler_scoring (s : GState) (g : String) (d0 : ChatData)
    (h : CorrectGuess s g d0.text) :
    (chatHandler s g d0).1 =
      if checkEveryoneGuessed (scoredState s g) then (endRound (scoredState s g)).1
      else scoredState s g := by
  simp only [chatHandler, h, if_true, reduceIte]
  split <;> rfl

theorem scoredState_fields (s : GState) (g : String) :
    (scoredState s g).scoreBonus = s.scoreBonus - 1 ∧
    (scoredState s g).winnerScore =
      (if s.winnerScore = 0 then creditedScore s else s.winnerScore) ∧
    (scoredState s g).remainingTime = s.remainingTime ∧
    (scoredState s g).hintsShown = s.hintsShown ∧
    (scoredState s g).phase = s.phase ∧
    (scoredState s g).players = updatePlayer s.players g
      (fun p => { p with score := p.score + creditedScore s, guessed := true }) :=
  ⟨rfl, rfl, rfl, rfl, rfl, rfl⟩

/-! ## Lemmas: effect of one round event on the score bookkeeping -/

theorem applyREvent_bonus (s : GState) (e : REvent) :
    (applyREvent s e).scoreBonus = s.scoreBonus - (if isScoring s e then 1 else 0) := by
  cases e with
  | chat g d =>
    by_cases hc : CorrectGuess s g d.text
    · have hsc : isScoring s (REvent.chat g d) = true := by
        simp [isScoring, hc]
      simp only [applyREvent, hsc, if_true]
      rw [chatHandler_scoring s g d hc]
      split
      · rw [(endRound_frame _).2.1, (scoredState_fields s g).1]
      · rw [(scoredState_fields s g).1]
    · have hsc : isScoring s (REvent.chat g d) = false := by
        simp [isScoring, hc]
      simp only [applyREvent, hsc, if_false]
      rw [chatHandler_nonscoring s g d hc]
      simp
  | tick t pick =>
    have hsc : isScoring s (REvent.tick t pick) = false := rfl
    simp only [applyREvent, hsc, if_false]
    split
    · rw [(playingTick_frame s t pick).1]; simp
    · simp
  | draw g d =>
    simpa [applyREvent, isScoring] using (frameOk_drawHandler s g d).1
  | disc g =>
    simpa [applyREvent, isScoring] using (frameOk_disconnectHandler s (some g)).1
  | join g sc id =>
    simpa [applyREvent, isScoring] using (frameOk_joinHandler s g sc id).1

theorem applyREvent_winner (s : GState) (e : REvent) :
    (applyREvent s e).winnerScore =
      if isScoring s e = true ∧ s.winnerScore = 0 then creditedScore s else s.winnerScore := by
  cases e with
  | chat g d =>
    by_cases hc : CorrectGuess s g d.text
    · have hsc : isScoring s (REvent.chat g d) = true := by simp [isScoring, hc]
      simp only [applyREvent, hsc, eq_self_iff_true, true_and]
      rw [chatHandler_scoring s g d hc]
      split
      · rw [(endRound_frame _).2.2.1, (scoredState_fields s g).2.1]
      · rw [(scoredState_fields s g).2.1]
    · have hsc : isScoring s (REvent.chat g d) = false := by simp [isScoring, hc]
      simp only [applyREvent, hsc, false_and, if_false, Bool.false_eq_true]
      rw [chatHandler_nonscoring s g d hc]
  | tick t pick =>
    have hsc : isScoring s (REvent.tick t pick) = false := rfl
    simp only [applyREvent, hsc, false_and, if_false, Bool.false_eq_true]
    split
    · rw [(playingTick_frame s t pick).2.1]
    · rfl
  | draw g d =>
    simpa [applyREvent, isScoring] using (frameOk_drawHandler s g d).2.1
  | disc g =>
    simpa [applyREvent, isScoring] using (frameOk_disconnectHandler s (some g)).2.1
  | join g sc id =>
    simpa [applyREvent, isScoring] using (frameOk_joinHandler s g sc id).2.1

theorem applyREvent_hints (s : GState) (e : REvent) :
    s.hintsShown ⊆ (applyREvent s e).hintsShown := by
  cases e with
  | chat g d =>
    by_cases hc : CorrectGuess s g d.text
    · simp only [applyREvent]
      rw [chatHandler_scoring s g d hc]
      split
      · rw [(endRound_frame _).2.2.2.2.2.1, (scoredState_fields s g).2.2.2.1]
        exact fun _ hx => hx
      · rw [(scoredState_fields s g).2.2.2.1]
        exact fun _ hx => hx
    · simp only [applyREvent]
      rw [chatHandler_nonscoring s g d hc]
      exact fun _ hx => hx
  | tick t pick =>
    simp only [applyREvent]
    split
    · exact (playingTick_frame s t pick).2.2
    · exact fun _ hx => hx
  | draw g d => exact (frameOk_drawHandler s g d).2.2.1
  | disc g => exact (frameOk_disconnectHandler s (some g)).2.2.1
  | join g sc id => exact (frameOk_joinHandler s g sc id).2.2.1

theorem playingTick_live (s : GState) (t : Int) (pick : Nat)
    (h : ¬ s.guessingTime - t ≤ 0) :
    (playingTick s t pick).1.phase = s.phase ∧
    (playingTick s t pick).1.remainingTime = s.guessingTime - t ∧
    (playingTick s t pick).1.guessingTime = s.guessingTime := by
  simp only [playingTick, checkWordHintAvailable, generateWordHintAdd]
  split_ifs with h1 h2 <;> simp_all

theorem playingTick_timeout (s : GState) (t : Int) (pick : Nat)
    (h : s.guessingTime - t ≤ 0) :
    (playingTick s t pick).1.phase = Phase.cooldown := by
  simp only [playingTick, checkWordHintAvailable, generateWordHintAdd, endRound]
  split_ifs with h1 h2 <;> simp_all

theorem applyREvent_roundInv (s : GState) (e : REvent) (h : RoundInv s) :
    RoundInv (applyREvent s e) := by
  cases e with
  | chat g d =>
    intro hp
    by_cases hc : CorrectGuess s g d.text
    · simp only [applyREvent] at hp ⊢
      rw [chatHandler_scoring s g d hc] at hp ⊢
      by_cases hev : checkEveryoneGuessed (scoredState s g) = true
      · rw [if_pos hev, (endRound_frame _).1] at hp
        cases hp
      · rw [if_neg hev] at hp ⊢
        rw [(scoredState_fields s g).2.2.1]
        exact h hc.1
    · simp only [applyREvent] at hp ⊢
      rw [chatHandler_nonscoring s g d hc] at hp ⊢
      exact h hp
  | tick t pick =>
    intro hp
    simp only [applyREvent] at hp ⊢
    by_cases hply : s.phase = Phase.playing
    · rw [if_pos hply] at hp ⊢
      by_cases hz : s.guessingTime - t ≤ 0
      · rw [playingTick_timeout s t pick hz] at hp
        cases hp
      · rw [(playingTick_live s t pick hz).2.1]
        omega
    · rw [if_neg hply] at hp ⊢
      exact h hp
  | draw g d =>
    intro hp
    simp only [applyREvent] at hp ⊢
    obtain ⟨h1, h2⟩ := (frameOk_drawHandler s g d).2.2.2 hp
    rw [h2]
    exact h h1
  | disc g =>
    intro hp
    simp only [applyREvent] at hp ⊢
    obtain ⟨h1, h2⟩ := (frameOk_disconnectHandler s (some g)).2.2.2 hp
    rw [h2]
    exact h h1
  | join g sc id =>
    intro hp
    simp only [applyREvent] at hp ⊢
    obtain ⟨h1, h2⟩ := (frameOk_joinHandler s g sc id).2.2.2 hp
    rw [h2]
    exact h h1

/-! ## Lemmas: arithmetic facts about the score formula -/

/-- The code computes `round(min(30, rt/2))`; on integer remaining times
this equals the specification's `min(30, round(rt*0.5))`. -/
theorem timeScore_eq_min (rt : Int) : timeScore rt = min 30 (Int.fdiv (rt + 1) 2) := by
  have he : Int.fdiv (rt + 1) 2 = (rt + 1) / 2 := Int.fdiv_eq_ediv _ (by norm_num)
  unfold timeScore
  rw [he]
  split_ifs with h
  · symm
    rw [min_eq_left]
    omega
  · symm
    rw [min_eq_right]
    omega

theorem timeScore_ge_one (rt : Int) (h : 1 ≤ rt) : 1 ≤ timeScore rt := by
  have he : Int.fdiv (rt + 1) 2 = (rt + 1) / 2 := Int.fdiv_eq_ediv _ (by norm_num)
  unfold timeScore
  rw [he]
  split_ifs with h60 <;> omega

/-- A correct guess that is scored on a `GoodR` state with no previous
winner is credited a strictly positive score (`10 + timeScore + 6 + 4`). -/
theorem creditedScore_pos (s : GState) (h : GoodR s) (hply : s.phase = Phase.playing)
    (h0 : s.winnerScore = 0) : 0 < creditedScore s := by
  unfold creditedScore
  rw [h.2 h0, if_pos h0]
  have := timeScore_ge_one s.remainingTime (h.1 hply)
  unfold SCORE_BASE SCORE_BONUS_MAX SCORE_BONUS_FIRST
  omega

theorem applyREvent_goodR (s : GState) (e : REvent) (h : GoodR s) :
    GoodR (applyREvent s e) := by
  refine ⟨applyREvent_roundInv s e h.1, fun h0 => ?_⟩
  rw [applyREvent_winner] at h0
  rw [applyREvent_bonus]
  by_cases hsc : isScoring s e = true
  · by_cases hw : s.winnerScore = 0
    · rw [if_pos ⟨hsc, hw⟩] at h0
      have hply : s.phase = Phase.playing := by
        cases e with
        | chat g d =>
          simp only [isScoring, decide_eq_true_eq] at hsc
          exact hsc.1
        | tick t pick => cases hsc
        | draw g d => cases hsc
        | disc g => cases hsc
        | join g sc id => cases hsc
      exact absurd h0 (by have := creditedScore_pos s h hply hw; omega)
    · rw [if_neg (by tauto)] at h0
      exact absurd h0 hw
  · rw [if_neg (by tauto)] at h0
    have hb := h.2 h0
    simp only [hsc, if_false, Bool.false_eq_true]
    omega

/-! ## Lemmas: score bookkeeping along a round trace -/

theorem runRound_bonus (evs : List REvent) (s : GState) :
    (runRound s evs).scoreBonus = s.scoreBonus - scoringCount s evs := by
  induction evs generalizing s with
  | nil => simp [runRound, scoringCount]
  | cons e es ih =>
    show (runRound (applyREvent s e) es).scoreBonus = _
    rw [ih (applyREvent s e), applyREvent_bonus]
    show _ = s.scoreBonus - ((if isScoring s e then 1 else 0) + scoringCount (applyREvent s e) es : Nat)
    split_ifs <;> push_cast <;> ring

theorem runRound_winner_stable (evs : List REvent) (s : GState) (h : s.winnerScore ≠ 0) :
    (runRound s evs).winnerScore = s.winnerScore := by
  induction evs generalizing s with
  | nil => rfl
  | cons e es ih =>
    show (runRound (applyREvent s e) es).winnerScore = _
    have hstep : (applyREvent s e).winnerScore = s.winnerScore := by
      rw [applyREvent_winner, if_neg (by tauto)]
    rw [ih (applyREvent s e) (hstep ▸ h), hstep]

theorem runRound_winner (evs : List REvent) (s : GState) (h : GoodR s)
    (h0 : s.winnerScore = 0) :
    (runRound s evs).winnerScore = firstGuessScore s evs := by
  induction evs generalizing s with
  | nil => simpa [runRound, firstGuessScore] using h0
  | cons e es ih =>
    show (runRound (applyREvent s e) es).winnerScore = _
    by_cases hsc : isScoring s e = true
    · have hstep : (applyREvent s e).winnerScore = creditedScore s := by
        rw [applyREvent_winner, if_pos ⟨hsc, h0⟩]
      have hply : s.phase = Phase.playing := by
        cases e with
        | chat g d =>
          simp only [isScoring, decide_eq_true_eq] at hsc
          exact hsc.1
        | tick t pick => cases hsc
        | draw g d => cases hsc
        | disc g => cases hsc
        | join g sc id => cases hsc
      have hpos := creditedScore_pos s h hply h0
      rw [runRound_winner_stable es (applyREvent s e) (by omega : (applyREvent s e).winnerScore ≠ 0), hstep]
      · show _ = firstGuessScore s (e :: es)
        simp [firstGuessScore, hsc]
    · have hstep : (applyREvent s e).winnerScore = s.winnerScore := by
        rw [applyREvent_winner, if_neg (by tauto)]
      rw [ih (applyREvent s e) (applyREvent_goodR s e h) (hstep.trans h0)]
      show _ = firstGuessScore s (e :: es)
      simp [firstGuessScore, hsc]

theorem isScoring_playing (s : GState) (e : REvent) (h : isScoring s e = true) :
    s.phase = Phase.playing := by
  cases e with
  | chat g d =>
    simp only [isScoring, decide_eq_true_eq] at h
    exact h.1
  | tick t pick => cases h
  | draw g d => cases h
  | disc g => cases h
  | join g sc id => cases h

theorem runRound_winner_zero_iff (evs : List REvent) (s : GState) (h : GoodR s) :
    ((runRound s evs).winnerScore = 0 ↔ s.winnerScore = 0 ∧ scoringCount s evs = 0) := by
  induction evs generalizing s with
  | nil => simp [runRound, scoringCount]
  | cons e es ih =>
    show (runRound (applyREvent s e) es).winnerScore = 0 ↔ _
    rw [ih _ (applyREvent_goodR s e h), applyREvent_winner]
    by_cases hsc : isScoring s e = true
    · have hcnt : scoringCount s (e :: es) = 1 + scoringCount (applyREvent s e) es := by
        simp [scoringCount, hsc]
      by_cases hw : s.winnerScore = 0
      · rw [if_pos ⟨hsc, hw⟩]
        have hpos := creditedScore_pos s h (isScoring_playing s e hsc) hw
        constructor
        · rintro ⟨hcred, -⟩
          exact absurd hcred (by omega)
        · rintro ⟨-, hcount⟩
          rw [hcnt] at hcount
          omega
      · rw [if_neg (by tauto)]
        constructor
        · rintro ⟨h0, -⟩
          exact absurd h0 hw
        · rintro ⟨h0, -⟩
          exact absurd h0 hw
    · rw [if_neg (by tauto)]
      have hcnt : scoringCount s (e :: es) = scoringCount (applyREvent s e) es := by
        simp [scoringCount, hsc]
      rw [hcnt]

/-! ## Lemmas: the state at round start -/

/-- The round timer's immediate first tick at full time (80) never
reveals a hint: the threshold `80·m ≤ 30·m` forces `m = 0`, which the
guard excludes. -/
theorem checkWordHintAvailable_fresh (s : GState) (hs : s.hintsShown = []) (t : Int)
    (ht : 31 ≤ t) (pick : Nat) : (checkWordHintAvailable s t pick).1 = s := by
  unfold checkWordHintAvailable
  dsimp only
  rw [if_neg]
  rintro ⟨hm0, hle⟩
  rw [hs] at hle
  simp only [List.length_nil, Nat.cast_zero, sub_zero] at hle
  unfold TIME_ROUND_HINT_START at hle
  have hm1 : 1 ≤ (maxHints s.wordCharLength : Int) := by
    have : 1 ≤ maxHints s.wordCharLength := Nat.one_le_iff_ne_zero.mpr hm0
    exact_mod_cast this
  nlinarith

theorem roundStartState_eq (s : GState) (w : String) :
    roundStartState s w = { s with
      word := w,
      wordCharLength := alphaCount w,
      hintsShown := [],
      players := s.players.map (fun p => (p.1, { p.2 with guessed := false })),
      roundScores := s.players.map (fun p => (p.1, (0 : Int))),
      drawHistory := [],
      chatHistory := s.chatHistory ++
        [{ sender := SERVER_NAME, text := (s.drawingPlayerName.getD "") ++ " is drawing now!" }],
      guessingTime := TIME_ROUND_BASE,
      remainingTime := TIME_ROUND_BASE,
      winnerScore := 0,
      scoreBonus := SCORE_BONUS_MAX,
      phase := Phase.playing } := by
  unfold roundStartState startRound
  dsimp only
  exact checkWordHintAvailable_fresh _ rfl _ (by norm_num [TIME_ROUND_BASE]) 0

theorem roundStartState_goodR (s : GState) (w : String) : GoodR (roundStartState s w) := by
  rw [roundStartState_eq]
  exact ⟨fun _ => by norm_num [TIME_ROUND_BASE], fun _ => rfl⟩

theorem lookupPlayer_updatePlayer_ne (ps : List (String × Player)) (n m : String)
    (f : Player → Player) (h : m ≠ n) :
    lookupPlayer (updatePlayer ps n f) m = lookupPlayer ps m := by
  induction ps with
  | nil => rfl
  | cons p ps ih =>
    by_cases hp : p.1 = n
    · have hb : (n == m) = false := beq_eq_false_iff_ne.mpr (fun hx => h hx.symm)
      simp only [lookupPlayer, updatePlayer, List.map_cons, hp, List.find?_cons,
        beq_self_eq_true, if_true, reduceIte, hb] at ih ⊢
      simpa [lookupPlayer, updatePlayer] using ih
    · have hb : (p.1 == n) = false := beq_eq_false_iff_ne.mpr hp
      simp only [lookupPlayer, updatePlayer, List.map_cons, hb, Bool.false_eq_true,
        reduceIte, List.find?_cons] at ih ⊢
      cases hx : p.1 == m
      · simpa [lookupPlayer, updatePlayer] using ih
      · rfl

theorem lookupPlayer_endRound_ne (s : GState) (m : String)
    (hm : m ≠ s.drawingPlayerName.getD "null") :
    lookupPlayer (endRound s).1.players m = lookupPlayer s.players m := by
  unfold endRound
  dsimp only
  exact lookupPlayer_updatePlayer_ne _ _ _ _ hm

/-- C1: for every correct guess (exact case-insensitive match of the
active word by a non-drawer during `PLAYING`, reached from a round start
by any trace of in-round events), the score credited to the guesser is
`base(10) + min(30, round(remainingTime·0.5)) + bonus + (4 if no one has
guessed yet this round else 0)`, where the bonus starts at 6 and drops
by 1 per previous correct guess of the round with no floor.  In
particular the first guess at remaining time 50 credits
`10 + 25 + 6 + 4 = 45` (see the witness). -/
theorem C1_guesser_score (s0 : GState) (w : String) (evs : List REvent)
    (g : String) (d : ChatData) (p : Player)
    (hc : CorrectGuess (runRound (roundStartState s0 w) evs) g d.text)
    (hdr : (runRound (roundStartState s0 w) evs).drawingPlayerName ≠ none)
    (hp : lookupPlayer (runRound (roundStartState s0 w) evs).players g = some p) :
    lookupPlayer ((chatHandler (runRound (roundStartState s0 w) evs) g d).1).players g =
      some { score := p.score +
          (SCORE_BASE +
            min 30 (Int.fdiv ((runRound (roundStartState s0 w) evs).remainingTime + 1) 2) +
            (SCORE_BONUS_MAX - (scoringCount (roundStartState s0 w) evs : Int)) +
            (if scoringCount (roundStartState s0 w) evs = 0 then SCORE_BONUS_FIRST else 0)),
             guessed := true } := by
  have hG : GoodR (roundStartState s0 w) := roundStartState_goodR s0 w
  have hb : (runRound (roundStartState s0 w) evs).scoreBonus =
      SCORE_BONUS_MAX - scoringCount (roundStartState s0 w) evs := by
    rw [runRound_bonus, show (roundStartState s0 w).scoreBonus = SCORE_BONUS_MAX by
      rw [roundStartState_eq]]
  have hw0 : (roundStartState s0 w).winnerScore = 0 := by rw [roundStartState_eq]
  have hwiff : (runRound (roundStartState s0 w) evs).winnerScore = 0 ↔
      scoringCount (roundStartState s0 w) evs = 0 := by
    rw [runRound_winner_zero_iff evs _ hG, hw0]
    simp
  have hcred : creditedScore (runRound (roundStartState s0 w) evs) =
      SCORE_BASE +
        min 30 (Int.fdiv ((runRound (roundStartState s0 w) evs).remainingTime + 1) 2) +
        (SCORE_BONUS_MAX - (scoringCount (roundStartState s0 w) evs : Int)) +
        (if scoringCount (roundStartState s0 w) evs = 0 then SCORE_BONUS_FIRST else 0) := by
    unfold creditedScore
    rw [timeScore_eq_min, hb]
    have hlast : (if (runRound (roundStartState s0 w) evs).winnerScore = 0
        then SCORE_BONUS_FIRST else 0) =
        (if scoringCount (roundStartState s0 w) evs = 0 then SCORE_BONUS_FIRST else 0) := by
      by_cases hk : scoringCount (roundStartState s0 w) evs = 0
      · rw [if_pos (hwiff.mpr hk), if_pos hk]
      · rw [if_neg (fun hx => hk (hwiff.mp hx)), if_neg hk]
    rw [hlast]
  have hgdn : g ≠ (runRound (roundStartState s0 w) evs).drawingPlayerName.getD "null" := by
    obtain ⟨dn, hdn⟩ := Option.ne_none_iff_exists'.mp hdr
    rw [hdn]
    intro hx
    exact hc.2.2.2.1 (by rw [hx, hdn]; rfl)
  have hgdn2 : g ≠
      (scoredState (runRound (roundStartState s0 w) evs) g).drawingPlayerName.getD "null" := hgdn
  rw [chatHandler_scoring _ g d hc]
  split
  · rw [lookupPlayer_endRound_ne _ _ hgdn2,
      (scoredState_fields (runRound (roundStartState s0 w) evs) g).2.2.2.2.2,
      lookupPlayer_updatePlayer, hp, Option.map_some']
    rw [hcred]
  · rw [(scoredState_fields (runRound (roundStartState s0 w) evs) g).2.2.2.2.2,
      lookupPlayer_updatePlayer, hp, Option.map_some']
    rw [hcred]

/-- C1 witness, the specification's scenario: three fresh players, alice
drawing "apple", one tick to remaining time 50, then bob's first correct
guess credits `10 + 25 + 6 + 4 = 45`. -/
theorem C1_guesser_score_witness :
    lookupPlayer ((chatHandler (runRound (roundStartState exBase "apple") [REvent.tick 30 0])
        "bob" { sender := "bob", text := "apple" }).1).players "bob" =
      some { score := 45, guessed := true } := by
  have h := C1_guesser_score exBase "apple" [REvent.tick 30 0] "bob"
    { sender := "bob", text := "apple" } { score := 0, guessed := false }
    (by decide) (by decide) (by decide)
  exact h.trans (by decide)

/-- C7: a correct guess during `PLAYING` tightens the time budget
(`guessingTime`) by at most 5 units, never by a negative amount, leaves
it unchanged when the remaining time is already at or below the 10-unit
floor, and never pushes the effective remaining time
(`remainingTime - reduction`) below 10. -/
theorem C7_time_tighten (s : GState) (g : String) (d : ChatData)
    (hc : CorrectGuess s g d.text) :
    0 ≤ s.guessingTime - (chatHandler s g d).1.guessingTime ∧
    s.guessingTime - (chatHandler s g d).1.guessingTime ≤ 5 ∧
    (s.remainingTime ≤ 10 → (chatHandler s g d).1.guessingTime = s.guessingTime) ∧
    (10 < s.remainingTime →
      10 ≤ s.remainingTime - (s.guessingTime - (chatHandler s g d).1.guessingTime)) := by
  rw [chatHandler_scoring s g d hc]
  have hgt : (if checkEveryoneGuessed (scoredState s g) then (endRound (scoredState s g)).1
      else scoredState s g).guessingTime = (scoredState s g).guessingTime := by
    split
    · exact (endRound_frame _).2.2.2.2.1
    · rfl
  rw [hgt]
  have hval : (scoredState s g).guessingTime =
      if 10 < s.remainingTime then
        s.guessingTime - min TIME_ROUND_REDUCTION (max 0 (s.remainingTime - TIME_ROUND_MINIMUM))
      else s.guessingTime := rfl
  rw [hval]
  unfold TIME_ROUND_REDUCTION TIME_ROUND_MINIMUM
  by_cases h10 : 10 < s.remainingTime
  · rw [if_pos h10]
    rcases le_total (5 : Int) (max 0 (s.remainingTime - 10)) with hm | hm <;>
      rcases le_total (0 : Int) (s.remainingTime - 10) with hx | hx <;>
      simp [min_def, max_def] at * <;>
      constructor <;> try constructor
    all_goals try omega
  · rw [if_neg h10]
    refine ⟨by omega, by omega, fun _ => rfl, fun hcon => absurd hcon h10⟩

/-- C7 witness: bob's correct guess on "apple" at remaining time 40
(budget 75) reduces the budget by exactly 5, keeping the effective
remaining time (35) above the floor. -/
theorem C7_time_tighten_witness :
    0 ≤ exSecond.guessingTime -
      (chatHandler exSecond "carol" { sender := "carol", text := "apple" }).1.guessingTime ∧
    exSecond.guessingTime -
      (chatHandler exSecond "carol" { sender := "carol", text := "apple" }).1.guessingTime ≤ 5 ∧
    (exSecond.remainingTime ≤ 10 →
      (chatHandler exSecond "carol" { sender := "carol", text := "apple" }).1.guessingTime =
        exSecond.guessingTime) ∧
    (10 < exSecond.remainingTime →
      10 ≤ exSecond.remainingTime - (exSecond.guessingTime -
        (chatHandler exSecond "carol" { sender := "carol", text := "apple" }).1.guessingTime)) :=
  C7_time_tighten exSecond "carol" { sender := "carol", text := "apple" } (by decide)

/-- C8: when a correct guess during `PLAYING` comes from a player such
that every other connected non-drawer has already guessed, the round
ends in this same handler invocation: the state leaves `PLAYING` for
`COOLDOWN` without waiting for the timer. -/
theorem C8_round_ends (s : GState) (g : String) (d : ChatData)
    (hc : CorrectGuess s g d.text)
    (hall : ∀ p ∈ s.players, p.1 ≠ g → some p.1 ≠ s.drawingPlayerName → p.2.guessed = true) :
    (chatHandler s g d).1.phase = Phase.cooldown := by
  rw [chatHandler_scoring s g d hc]
  have hev : checkEveryoneGuessed (scoredState s g) = true := by
    unfold checkEveryoneGuessed
    rw [List.all_eq_true]
    intro q hq
    rw [(scoredState_fields s g).2.2.2.2.2] at hq
    unfold updatePlayer at hq
    rw [List.mem_map] at hq
    obtain ⟨p, hpmem, hpq⟩ := hq
    by_cases hpg : p.1 = g
    · rw [if_pos (by simpa using hpg)] at hpq
      rw [← hpq]
      simp
    · rw [if_neg (by simpa using hpg)] at hpq
      subst hpq
      by_cases hdrw : some p.1 = s.drawingPlayerName
      · have : (some p.1 == (scoredState s g).drawingPlayerName) = true := by
          have hd : (scoredState s g).drawingPlayerName = s.drawingPlayerName := rfl
          rw [hd, ← hdrw]
          simp
        simp [this]
      · rw [hall p hpmem hpg hdrw]
        simp
  rw [if_pos hev]
  exact (endRound_frame _).1

/-- C8 witness: in the two-player session, bob is the last non-drawer;
his correct guess flips the phase to `COOLDOWN` immediately. -/
theorem C8_round_ends_witness :
    (chatHandler exTwo "bob" { sender := "bob", text := "apple" }).1.phase = Phase.cooldown :=
  C8_round_ends exTwo "bob" { sender := "bob", text := "apple" } (by decide) (by decide)

/-- C9: `startGame` invoked with fewer than two connected players
returns after resetting `roundsPlayed` to 0 and regenerating `gameId`:
no message is emitted, no score is reset, no round is prepared, and
every other state component is left unchanged (captured by the full
record equality). -/
theorem C9_startGame_abort (s : GState) (newId : Nat) (h : s.players.length < 2) :
    startGame s newId = ({ s with roundsPlayed := 0, gameId := newId }, []) := by
  unfold startGame
  dsimp only
  rw [if_pos h]

/-- C9 witness: aborting on a one-player roster still rewrites
`roundsPlayed` (1 → 0) and `gameId` (7 → 42). -/
theorem C9_startGame_abort_witness :
    startGame exSolo 42 = ({ exSolo with roundsPlayed := 0, gameId := 42 }, []) :=
  C9_startGame_abort exSolo 42 (by decide)

/-- C10: during `PLAYING` a draw message from any sender other than the
drawer is ignored entirely — nothing is emitted and the draw history is
neither appended to nor cleared; outside `PLAYING` any sender's draw
message is broadcast and folded into the history (append, or clear for
the `clear` tool). -/
theorem C10_draw_frame (s : GState) (p : String) (q : Option String) (d : DrawData) :
    (s.phase = Phase.playing → some p ≠ s.drawingPlayerName →
      drawHandler s (some p) d = (s, [])) ∧
    (s.phase ≠ Phase.playing →
      drawHandler s q d =
        ({ s with drawHistory := if d.tool = "clear" then [] else s.drawHistory ++ [d] },
         [Emit.broadcastDraw d])) := by
  constructor
  · intro h1 h2
    unfold drawHandler
    rw [if_pos ⟨h1, h2⟩]
  · intro h1
    unfold drawHandler
    rw [if_neg (fun hx => h1 hx.1)]

/-- C10 witness: bob's stroke during alice's round is dropped with the
history untouched; the same stroke in the idle session is broadcast and
appended. -/
theorem C10_draw_frame_witness :
    drawHandler exSecond (some "bob") { tool := "line" } = (exSecond, []) ∧
    drawHandler exDraw none { tool := "line" } =
      ({ exDraw with drawHistory :=
          if ({ tool := "line" } : DrawData).tool = "clear" then []
          else exDraw.drawHistory ++ [{ tool := "line" }] },
       [Emit.broadcastDraw { tool := "line" }]) :=
  ⟨(C10_draw_frame exSecond "bob" none { tool := "line" }).1 (by decide) (by decide),
   (C10_draw_frame exDraw "bob" none { tool := "line" }).2 (by decide)⟩

/-- C2 (code-bug evaluation): the chat handler's scoring guard never
consults the sender's `guessed` flag, so a player who has already
guessed (bob, credited 45) and resubmits the same matching text is
credited AGAIN (here `10 + 20 + 5 + 0 = 35` more, 45 → 80), directly
contradicting the specification's "must not double-score". -/
theorem C2_double_credit :
    lookupPlayer exSecond.players "bob" = some { score := 45, guessed := true } ∧
    lookupPlayer ((chatHandler exSecond "bob"
        { sender := "bob", text := "apple" }).1).players "bob" =
      some { score := 80, guessed := true } :=
  ⟨by decide, by decide⟩

/-! ## C3: hint monotonicity and the reveal cap -/

theorem playingTick_hints (s : GState) (t : Int) (pick : Nat) :
    (playingTick s t pick).1.hintsShown =
      (checkWordHintAvailable { s with remainingTime := s.guessingTime - t }
        (s.guessingTime - t) pick).1.hintsShown := by
  unfold playingTick
  dsimp only
  split
  · exact (endRound_frame _).2.2.2.2.2.1
  · rfl

/-- While the broadcast time is still positive, the threshold check can
only fire when fewer than `maxHints` hints are shown, so the cap is
preserved and reaching it makes the reveal a no-op. -/
theorem checkWordHint_cap (s : GState) (t : Int) (pick : Nat) (ht : 1 ≤ t) :
    (s.hintsShown.length ≤ maxHints s.wordCharLength →
      (checkWordHintAvailable s t pick).1.hintsShown.length ≤ maxHints s.wordCharLength) ∧
    (s.hintsShown.length = maxHints s.wordCharLength →
      (checkWordHintAvailable s t pick).1.hintsShown = s.hintsShown) := by
  unfold checkWordHintAvailable
  dsimp only
  by_cases hc : maxHints s.wordCharLength ≠ 0 ∧
      t * (maxHints s.wordCharLength : Int) ≤
        TIME_ROUND_HINT_START * ((maxHints s.wordCharLength : Int) - s.hintsShown.length)
  · rw [if_pos hc]
    obtain ⟨hm0, hle⟩ := hc
    unfold TIME_ROUND_HINT_START at hle
    have hm1 : 1 ≤ (maxHints s.wordCharLength : Int) := by
      have : 1 ≤ maxHints s.wordCharLength := Nat.one_le_iff_ne_zero.mpr hm0
      exact_mod_cast this
    have hmlt : s.hintsShown.length < maxHints s.wordCharLength := by
      by_contra hge
      push_neg at hge
      have h1 : ((maxHints s.wordCharLength : Int) - s.hintsShown.length) ≤ 0 := by
        have : (maxHints s.wordCharLength : Int) ≤ s.hintsShown.length := by exact_mod_cast hge
        omega
      nlinarith
    constructor
    · intro _
      unfold generateWordHintAdd
      split
      · simp only [List.length_append, List.length_cons, List.length_nil]
        omega
      · omega
    · intro heq
      omega
  · rw [if_neg hc]
    exact ⟨fun h => h, fun _ => rfl⟩

/-- Once every alphabetic letter is revealed, `generateWordHint(true)`
is a no-op regardless of the timer. -/
theorem checkWordHint_full (s : GState) (t : Int) (pick : Nat)
    (h : s.wordCharLength ≤ s.hintsShown.length) :
    (checkWordHintAvailable s t pick).1.hintsShown = s.hintsShown := by
  unfold checkWordHintAvailable generateWordHintAdd
  dsimp only
  split
  · rw [if_neg]
    rintro ⟨hlt, -⟩
    omega
  · rfl

/-- C3 (amended): within a round, `hintsShown` never shrinks under any
message handler or tick; a tick whose recomputed remaining time is still
positive keeps its size within `ceil(alphaCount/3)` (and is a no-op once
that cap is reached); and revealing is a no-op once every alphabetic
letter is shown.  (The claim's unconditional cap fails only on the
round-ENDING tick, whose remaining time is ≤ 0 — see the
counterexample — so the overall bound is one above the cap, still below
the letter count.) -/
theorem C3_hints_amended (s : GState) (e : REvent) (t : Int) (pick : Nat) :
    s.hintsShown ⊆ (applyREvent s e).hintsShown ∧
    (1 ≤ s.guessingTime - t →
      (s.hintsShown.length ≤ maxHints s.wordCharLength →
        (applyREvent s (REvent.tick t pick)).hintsShown.length ≤ maxHints s.wordCharLength) ∧
      (s.hintsShown.length = maxHints s.wordCharLength →
        (applyREvent s (REvent.tick t pick)).hintsShown = s.hintsShown)) ∧
    (s.wordCharLength ≤ s.hintsShown.length →
      (applyREvent s (REvent.tick t pick)).hintsShown = s.hintsShown) := by
  refine ⟨applyREvent_hints s e, fun hrt => ?_, fun hfull => ?_⟩
  · simp only [applyREvent]
    by_cases hply : s.phase = Phase.playing
    · rw [if_pos hply, playingTick_hints]
      exact checkWordHint_cap { s with remainingTime := s.guessingTime - t }
        (s.guessingTime - t) pick hrt
    · rw [if_neg hply]
      exact ⟨fun h => h, fun _ => rfl⟩
  · simp only [applyREvent]
    by_cases hply : s.phase = Phase.playing
    · rw [if_pos hply, playingTick_hints]
      exact checkWordHint_full _ _ _ hfull
    · rw [if_neg hply]

/-- C3 amended witness: a live tick (remaining time 45) on the fresh
"apple" round respects the cap. -/
theorem C3_hints_amended_witness :
    exSecond.hintsShown ⊆ (applyREvent exSecond (REvent.tick 30 0)).hintsShown ∧
    (applyREvent exSecond (REvent.tick 30 0)).hintsShown.length ≤
      maxHints exSecond.wordCharLength := by
  have h := C3_hints_amended exSecond (REvent.tick 30 0) 30 0
  exact ⟨h.1, (h.2.1 (by decide)).1 (by decide)⟩

/-- C3 counterexample: on the two-letter word "ab" (cap
`ceil(2/3) = 1`), the round-ending tick (remaining time 0) passes the
threshold check at the cap and `generateWordHint(true)`'s guard
(`size < wordCharLength`, not `size < maxHints`) admits a second reveal:
the revealed set grows from size 1 (= cap) to size 2 (> cap). -/
theorem C3_cap_counterexample :
    exHint.hintsShown.length = maxHints exHint.wordCharLength ∧
    ¬ ((applyREvent exHint (REvent.tick 3 1)).hintsShown.length ≤
        maxHints exHint.wordCharLength) := by decide

/-! ## C4: history capacities -/

/-- C4 (amended): only client chat messages are bounded — the handler
evicts the oldest entries down to 19 before appending, so after a client
chat append the history holds at most 20 entries; server-generated chat
lines (`sendChatMessageToAllPlayers`) append with no eviction; and the
draw history has no capacity bound at all — an accepted non-clear draw
message always appends (the `clear` tool empties it, and `startRound`
clears it between rounds). -/
theorem C4_history_amended (s : GState) (g : String) (d : ChatData) (txt : String)
    (q : Option String) (dd : DrawData) :
    (¬ CorrectGuess s g d.text →
      (chatHandler s g d).1.chatHistory =
        (if 20 ≤ s.chatHistory.length then s.chatHistory.drop (s.chatHistory.length - 19)
         else s.chatHistory) ++ [{ sender := g, text := d.text }] ∧
      (chatHandler s g d).1.chatHistory.length ≤ 20) ∧
    (sendChatToAll s txt).1.chatHistory =
      s.chatHistory ++ [{ sender := SERVER_NAME, text := txt }] ∧
    (¬ (s.phase = Phase.playing ∧ q ≠ s.drawingPlayerName) →
      (drawHandler s q dd).1.drawHistory =
        (if dd.tool = "clear" then [] else s.drawHistory ++ [dd])) := by
  refine ⟨fun hns => ⟨?_, ?_⟩, rfl, fun hq => ?_⟩
  · rw [chatHandler_nonscoring s g d hns]
    rfl
  · rw [chatHandler_nonscoring s g d hns]
    show (chatEvict s.chatHistory ++ [_]).length ≤ 20
    unfold chatEvict
    split
    · simp only [List.length_append, List.length_drop, List.length_cons, List.length_nil]
      omega
    · simp only [List.length_append, List.length_cons, List.length_nil]
      omega
  · unfold drawHandler
    rw [if_neg hq]

/-- C4 amended witness: a chat line in the fresh session is appended
with the (empty) history staying within 20, and a draw stroke in the
idle session is appended with no capacity check. -/
theorem C4_history_amended_witness :
    ((chatHandler exBase "bob" { sender := "bob", text := "hi" }).1.chatHistory =
      (if 20 ≤ exBase.chatHistory.length then
        exBase.chatHistory.drop (exBase.chatHistory.length - 19)
       else exBase.chatHistory) ++ [{ sender := "bob", text := "hi" }] ∧
      (chatHandler exBase "bob" { sender := "bob", text := "hi" }).1.chatHistory.length ≤ 20) ∧
    (drawHandler exDraw none { tool := "line" }).1.drawHistory =
      (if ({ tool := "line" } : DrawData).tool = "clear" then []
       else exDraw.drawHistory ++ [{ tool := "line" }]) :=
  ⟨(C4_history_amended exBase "bob" { sender := "bob", text := "hi" } "x" none
      { tool := "line" }).1 (by decide),
   (C4_history_amended exDraw "bob" { sender := "bob", text := "hi" } "x" none
      { tool := "line" }).2.2 (by decide)⟩

/-- C4 counterexample: the draw handler has no 1000-entry cap — an
accepted stroke on a history already holding 1000 entries yields 1001,
refuting "the draw history holds at most 1000 entries after every
operation". -/
theorem C4_draw_capacity_counterexample :
    exDraw.drawHistory.length = 1000 ∧
    ¬ ((drawHandler exDraw none { tool := "line" }).1.drawHistory.length ≤ 1000) := by
  have h0 : exDraw.drawHistory = List.replicate 1000 { tool := "line" } := rfl
  have h2 : (drawHandler exDraw none { tool := "line" }).1.drawHistory =
      exDraw.drawHistory ++ [{ tool := "line" }] := by
    unfold drawHandler
    rw [if_neg (by decide)]
    dsimp only
    rw [if_neg (by decide)]
  constructor
  · rw [h0, List.length_replicate]
  · rw [h2, List.length_append, h0, List.length_replicate]
    decide

/-! ## C5: drawer disconnect -/

theorem endRound_drawerGone (s : GState) : (endRound s).1.drawingPlayerName = none := rfl

/-- A loop iteration for a non-matching roster name either leaves the
state alone or runs `endRound` (the stray `checkEveryoneGuessed` check
the source performs for every non-matching name). -/
theorem discStep_nomatch (t : Option String) (preLen : Nat) (acc : GState × List Emit)
    (name : String) (h : ¬ (some name = t)) :
    (discStep t preLen acc name).1 = acc.1 ∨
    (discStep t preLen acc name).1 = (endRound acc.1).1 := by
  unfold discStep
  dsimp only
  rw [if_neg h]
  split
  · right; rfl
  · left; rfl

/-- C5 (amended): the direct `endGame` branch of the disconnect handler
tests the PRE-deletion roster size, so it only fires when the drawer was
the sole connected player (second part).  When the drawer disconnects
leaving one player — pre-deletion roster of exactly 2 — the handler
instead runs `endRound`: the session moves to `COOLDOWN` with the one
remaining player, and game over (`IDLE`) is reached only through the
cooldown timer's completion, whose quorum check fails. -/
theorem C5_drawer_disconnect_amended (s s2 : GState) (a b c : String) (pa pb pc : Player)
    (hab : a ≠ b) (hps : s.players = [(a, pa), (b, pb)]) (hd : s.drawingPlayerName = some a)
    (hps2 : s2.players = [(c, pc)]) (hd2 : s2.drawingPlayerName = some c) :
    (disconnectHandler s (some a)).1.phase = Phase.cooldown ∧
    (disconnectHandler s (some a)).1.players.map Prod.fst = [b] ∧
    (cooldownDone (disconnectHandler s (some a)).1).1.phase = Phase.idle ∧
    (disconnectHandler s2 (some c)).1.phase = Phase.idle := by
  have hpre : s.players.map Prod.fst = [a, b] := by rw [hps]; rfl
  have hfold : disconnectHandler s (some a) =
      discStep (some a) 2 (discStep (some a) 2 (s, []) a) b := by
    unfold disconnectHandler
    rw [hpre]
    rfl
  have hfilter : s.players.filter (fun p => !(p.1 == a)) = [(b, pb)] := by
    rw [hps]
    simp [List.filter_cons, beq_eq_false_iff_ne.mpr (Ne.symm hab)]
  have h1 : (discStep (some a) 2 (s, []) a).1 =
      (endRound
        { s with
            players := [(b, pb)],
            chatHistory := s.chatHistory ++
              [{ sender := SERVER_NAME, text := a ++ " disconnected" }] }).1 := by
    unfold discStep
    dsimp only
    rw [if_pos rfl, hfilter, hd, if_pos rfl, if_neg (by norm_num)]
  have hr1 := endRound_frame
    { s with
        players := [(b, pb)],
        chatHistory := s.chatHistory ++
          [{ sender := SERVER_NAME, text := a ++ " disconnected" }] }
  have h1phase : (discStep (some a) 2 (s, []) a).1.phase = Phase.cooldown := by
    rw [h1]; exact hr1.1
  have h1players : (discStep (some a) 2 (s, []) a).1.players.map Prod.fst = [b] := by
    rw [h1, hr1.2.2.2.2.2.2.2]
    rfl
  have hne : ¬ (some b = some a) := by simpa using Ne.symm hab
  have h2 := discStep_nomatch (some a) 2 (discStep (some a) 2 (s, []) a) b hne
  have h2phase : (disconnectHandler s (some a)).1.phase = Phase.cooldown := by
    rw [hfold]
    rcases h2 with h2 | h2 <;> rw [h2]
    · exact h1phase
    · exact (endRound_frame _).1
  have h2players : (disconnectHandler s (some a)).1.players.map Prod.fst = [b] := by
    rw [hfold]
    rcases h2 with h2 | h2 <;> rw [h2]
    · exact h1players
    · rw [(endRound_frame _).2.2.2.2.2.2.2]
      exact h1players
  refine ⟨h2phase, h2players, ?_, ?_⟩
  · have hlen : (disconnectHandler s (some a)).1.players.length = 1 := by
      have := congrArg List.length h2players
      rwa [List.length_map] at this
    unfold cooldownDone
    rw [if_neg (by omega)]
    exact (endGame_frame _).1
  · have hpre2 : s2.players.map Prod.fst = [c] := by rw [hps2]; rfl
    have hfold2 : disconnectHandler s2 (some c) = discStep (some c) 1 (s2, []) c := by
      unfold disconnectHandler
      rw [hpre2]
      rfl
    rw [hfold2]
    unfold discStep
    dsimp only
    rw [if_pos rfl, hd2, if_pos rfl, if_pos (by norm_num)]
    exact (endGame_frame _).1

/-- C5 amended witness: alice (drawing) disconnects from the two-player
session — `COOLDOWN`, roster `[bob]`, then `IDLE` at cooldown
completion; and the lone drawer's disconnect ends the game directly. -/
theorem C5_drawer_disconnect_amended_witness :
    (disconnectHandler exTwo (some "alice")).1.phase = Phase.cooldown ∧
    (disconnectHandler exTwo (some "alice")).1.players.map Prod.fst = ["bob"] ∧
    (cooldownDone (disconnectHandler exTwo (some "alice")).1).1.phase = Phase.idle ∧
    (disconnectHandler exSolo (some "alice")).1.phase = Phase.idle :=
  C5_drawer_disconnect_amended exTwo exSolo "alice" "bob" "alice"
    { score := 0, guessed := false } { score := 3, guessed := false }
    { score := 2, guessed := false }
    (by decide) (by decide) (by decide) (by decide) (by decide)

/-- C5 counterexample: with exactly two connected players the drawer's
disconnect does NOT transition directly to game over: the pre-deletion
roster size is 2, so the handler calls `endRound` and the session sits
in `COOLDOWN`, not `IDLE`. -/
theorem C5_drawer_disconnect_counterexample :
    (disconnectHandler exTwo (some "alice")).1.phase = Phase.cooldown ∧
    (disconnectHandler exTwo (some "alice")).1.phase ≠ Phase.idle := by decide

/-! ## C6: drawer payout -/

/-- C6: at round end, the drawer's ledger entry is
`round(winnerScore · guessedCount / totalGuessers)` when at least one
non-drawer has the guessed flag, and the fixed `-10` penalty otherwise
(first conjunct, over any session state); and along any in-round event
trace from a round start, `winnerScore` is exactly the score credited to
the FIRST correct guess of the round (`0` when nobody guessed), the
scaling basis the claim names (second conjunct). -/
theorem C6_drawer_payout (s0 : GState) (w : String) (evs : List REvent) (s : GState) :
    getAssoc (endRound s).1.roundScores (s.drawingPlayerName.getD "null") =
      some (if 0 <
          ((s.players.filter (fun p => !(some p.1 == s.drawingPlayerName))).filter
            (fun p => p.2.guessed)).length then
        jsRoundDiv
          (s.winnerScore *
            ((s.players.filter (fun p => !(some p.1 == s.drawingPlayerName))).filter
              (fun p => p.2.guessed)).length)
          ((s.players.filter (fun p => !(some p.1 == s.drawingPlayerName))).length)
        else SCORE_NO_CORRECT_GUESSES) ∧
    (runRound (roundStartState s0 w) evs).winnerScore =
      firstGuessScore (roundStartState s0 w) evs := by
  constructor
  · unfold endRound
    dsimp only
    exact getAssoc_setAssoc _ _ _
  · exact runRound_winner evs _ (roundStartState_goodR s0 w) (by rw [roundStartState_eq])
